import Mathlib

/-!
Verification of the pdf-opticompress decision policy: a shallow embedding of
the preset policy, content classifier, image optimization pass, pipeline
driver and batch driver from src/pdf-opticompress/src, with theorems checking
the specification's claims against the embedded code.

External collaborators (the lopdf document store and the image/oxipng codecs)
are modelled as opaque parameters; everything with branching logic in the
repository's own code is translated directly.
-/

namespace PdfOptiCompress

/-- PDF attribute values as far as this program inspects them: names
(Subtype, Filter), integers (Length), and everything else as an opaque
tagged value. Mirrors the lopdf Object values stored in dictionaries. -/
inductive PVal where
  | name (s : String)
  | int (i : Int)
  | other (tag : Nat)
deriving DecidableEq

/-- A stream object: an attribute dictionary plus a byte payload
(lopdf Stream with dict and content). Bytes are modelled as Nat. -/
structure Strm where
  dict : List (String × PVal)
  content : List Nat
deriving DecidableEq

/-- A document object: either a stream, or any non-stream object
(dictionary, array, reference, primitive) kept opaque with a tag,
since the image pass only distinguishes streams. -/
inductive PObj where
  | stream (s : Strm)
  | nonstream (tag : Nat)
deriving DecidableEq

/-- Errors surfaced by the per-file pipeline. -/
inductive Err where
  | noPages
  | missingRoot
  | codecErr (msg : String)
deriving DecidableEq

/-- Dictionary lookup: first binding of the key (lopdf dict.get,
with key-present modelled as some). -/
def dictGet : List (String × PVal) → String → Option PVal
  | [], _ => none
  | (k2, v) :: t, k => if k2 = k then some v else dictGet t k

/-- Dictionary update: replace the binding if the key is present,
append it otherwise (lopdf dict.set). -/
def dictSet : List (String × PVal) → String → PVal → List (String × PVal)
  | [], k, v => [(k, v)]
  | (k2, v2) :: t, k, v => if k2 = k then (k, v) :: t else (k2, v2) :: dictSet t k v

/-- Quality presets from cli.rs. -/
inductive Preset where
  | web
  | print
  | archive
  | maximum
deriving DecidableEq

/-- ImageSettings from image_optimizer.rs. -/
structure ImageSettings where
  jpeg_quality : Nat
  enable_png_optimization : Bool
  max_dimension : Option Nat
deriving DecidableEq

/-- create_image_settings_for_preset from image_optimizer.rs, lines 24-47. -/
def create_image_settings_for_preset (preset : Preset) (quality : Nat) : ImageSettings :=
  match preset with
  | Preset.web =>
      { jpeg_quality := quality
        enable_png_optimization := true
        max_dimension := some 1920 }
  | Preset.print =>
      { jpeg_quality := Nat.max quality 85
        enable_png_optimization := true
        max_dimension := none }
  | Preset.archive =>
      { jpeg_quality := quality
        enable_png_optimization := true
        max_dimension := none }
  | Preset.maximum =>
      { jpeg_quality := Nat.min quality 70
        enable_png_optimization := true
        max_dimension := some 1024 }

/-- The fixed preset table of spec section 4.2, written from the spec's words
for a refinement comparison: Web keeps the quality and caps dimension at
1920; Print floors quality at 85; Archive keeps the quality; Maximum caps
quality at 70 and dimension at 1024; lossless optimization on everywhere. -/
def derive_image_settings_spec (p : Preset) (q : Nat) : ImageSettings :=
  match p with
  | Preset.web => { jpeg_quality := q, enable_png_optimization := true, max_dimension := some 1920 }
  | Preset.print => { jpeg_quality := Nat.max q 85, enable_png_optimization := true, max_dimension := none }
  | Preset.archive => { jpeg_quality := q, enable_png_optimization := true, max_dimension := none }
  | Preset.maximum => { jpeg_quality := Nat.min q 70, enable_png_optimization := true, max_dimension := some 1024 }

/-- SaveOptions from pdf_writer.rs. -/
structure SaveOptions where
  enable_compression : Bool
deriving DecidableEq

/-- create_save_options_for_preset from pdf_writer.rs: compression enabled
for every preset. -/
def create_save_options_for_preset (preset : Preset) : SaveOptions :=
  match preset with
  | Preset.web => { enable_compression := true }
  | Preset.print => { enable_compression := true }
  | Preset.archive => { enable_compression := true }
  | Preset.maximum => { enable_compression := true }

/-- Image formats the optimizer distinguishes; `other` stands for every
remaining variant of the image crate's format enum. -/
inductive ImageFormat where
  | jpeg
  | png
  | other
deriving DecidableEq

/-- The PNG magic bytes checked by stream.content.starts_with(b"\x89PNG"). -/
def pngSignature : List Nat := [0x89, 0x50, 0x4E, 0x47]

/-- starts_with of the four PNG magic bytes on a payload. -/
def startsWithPng (c : List Nat) : Bool := decide (c.take 4 = pngSignature)

/-- is_image_stream from image_optimizer.rs: the Subtype attribute is the
name Image. -/
def is_image_stream (s : Strm) : Bool :=
  match dictGet s.dict "Subtype" with
  | some (PVal.name n) => n = "Image"
  | _ => false

/-- detect_image_format from image_optimizer.rs, lines 111-135: the Filter
attribute is consulted first (DCTDecode means JPEG; FlateDecode means PNG
only when the payload carries the PNG signature), then the payload
signature, and JPEG is the default. -/
def detect_image_format (s : Strm) : ImageFormat :=
  let viaFilter : Option ImageFormat :=
    match dictGet s.dict "Filter" with
    | some (PVal.name n) =>
        if n = "DCTDecode" then some ImageFormat.jpeg
        else if n = "FlateDecode" then
          (if startsWithPng s.content then some ImageFormat.png else none)
        else none
    | _ => none
  match viaFilter with
  | some f => f
  | none => if startsWithPng s.content then ImageFormat.png else ImageFormat.jpeg

/-- create_optimized_stream from image_optimizer.rs, lines 197-205: clone the
stream, replace the payload, set Length to the new payload's byte length. -/
def create_optimized_stream (original : Strm) (newContent : List Nat) : Strm :=
  { dict := dictSet original.dict "Length" (PVal.int (newContent.length : Int))
    content := newContent }

/-- The external image codec pipelines called by optimize_image_stream:
optimize_jpeg_image, optimize_png_image (oxipng, settings unused by the
source), and convert_and_optimize_image, kept opaque. -/
structure Codec where
  optimizeJpeg : List Nat → ImageSettings → Except Err (List Nat)
  optimizePng : List Nat → Except Err (List Nat)
  convertOther : List Nat → ImageFormat → ImageSettings → Except Err (List Nat)

/-- optimize_image_stream from image_optimizer.rs: dispatch on the detected
format; JPEG and other formats are re-encoded, PNG only when PNG
optimization is enabled (otherwise the stream is left untouched and not
counted); each replacement goes through create_optimized_stream. -/
def optimize_image_stream (cdc : Codec) (s : Strm) (settings : ImageSettings) :
    Except Err (Option Strm) :=
  match detect_image_format s with
  | ImageFormat.jpeg =>
      match cdc.optimizeJpeg s.content settings with
      | Except.error e => Except.error e
      | Except.ok o => Except.ok (some (create_optimized_stream s o))
  | ImageFormat.png =>
      if settings.enable_png_optimization then
        match cdc.optimizePng s.content with
        | Except.error e => Except.error e
        | Except.ok o => Except.ok (some (create_optimized_stream s o))
      else Except.ok none
  | ImageFormat.other =>
      match cdc.convertOther s.content ImageFormat.other settings with
      | Except.error e => Except.error e
      | Except.ok o => Except.ok (some (create_optimized_stream s o))

/-- optimize_images_in_pdf from image_optimizer.rs, lines 50-69: walk the
object map in order, replace each qualifying image stream, count the
replacements, and abort with the first codec error. The object map is a
list of (id, object) pairs in iteration order. -/
def optimize_images_in_pdf (cdc : Codec) (settings : ImageSettings) :
    List (Nat × PObj) → Except Err (List (Nat × PObj) × Nat)
  | [] => Except.ok ([], 0)
  | (id, PObj.nonstream t) :: rest =>
      match optimize_images_in_pdf cdc settings rest with
      | Except.error e => Except.error e
      | Except.ok (r, n) => Except.ok ((id, PObj.nonstream t) :: r, n)
  | (id, PObj.stream s) :: rest =>
      if is_image_stream s then
        match optimize_image_stream cdc s settings with
        | Except.error e => Except.error e
        | Except.ok none =>
            match optimize_images_in_pdf cdc settings rest with
            | Except.error e => Except.error e
            | Except.ok (r, n) => Except.ok ((id, PObj.stream s) :: r, n)
        | Except.ok (some s2) =>
            match optimize_images_in_pdf cdc settings rest with
            | Except.error e => Except.error e
            | Except.ok (r, n) => Except.ok ((id, PObj.stream s2) :: r, n + 1)
      else
        match optimize_images_in_pdf cdc settings rest with
        | Except.error e => Except.error e
        | Except.ok (r, n) => Except.ok ((id, PObj.stream s) :: r, n)

/-- The batch driver's per-file fan-out restricted to the image pass: each
document in the batch is optimized independently. -/
def batchOptimize (cdc : Codec) (settings : ImageSettings)
    (docs : List (List (Nat × PObj))) : List (Except Err (List (Nat × PObj) × Nat)) :=
  docs.map (fun objs => optimize_images_in_pdf cdc settings objs)

/-- Sliding windows of length n over a list, as produced by Rust's
slice::windows: one window per start index, empty when the list is
shorter than n. -/
def windows (n : Nat) (l : List Nat) : List (List Nat) :=
  (List.range (l.length + 1 - n)).map (fun i => (l.drop i).take n)

/-- The text test applied to a stream by analyze_pdf, analyzer.rs lines
66-72: the dictionary declares Length and some 4-byte window of the payload
equals the 3-byte sequence b"BT\n" (66, 84, 10). -/
def streamCountedAsText (s : Strm) : Bool :=
  (dictGet s.dict "Length").isSome
    && (windows 4 s.content).any (fun w => decide (w = [66, 84, 10]))

/-- The (text_objects, text_size) tallies of analyze_pdf from analyzer.rs,
projected from the classifier loop: only stream objects are examined and
only those passing streamCountedAsText are counted. -/
def analyze_pdf_text (objs : List (Nat × PObj)) : Nat × Nat :=
  objs.foldl
    (fun acc p =>
      match p.2 with
      | PObj.stream s =>
          if streamCountedAsText s then (acc.1 + 1, acc.2 + s.content.length) else acc
      | PObj.nonstream _ => acc)
    (0, 0)

/-- The claim-side text marker test: the payload contains the 3-byte
sequence b"BT\n" anywhere, phrased with 3-byte windows. -/
def containsSeq (pat l : List Nat) : Bool :=
  (windows pat.length l).any (fun w => decide (w = pat))

/-- calculate_compression_ratio from utils.rs, lines 53-58, with the f64
arithmetic modelled as exact rationals. -/
def calculate_compression_ratio (original compressed : Nat) : ℚ :=
  if original = 0 then 0
  else ((original : ℚ) - (compressed : ℚ)) / (original : ℚ) * 100

/-- OptimizationResult from optimizer.rs (the processing-time field, pure
wall-clock bookkeeping, is not modelled). -/
structure OptimizationResult where
  original_size : Nat
  optimized_size : Nat
  compression_ratio : ℚ
  images_optimized : Nat
deriving DecidableEq

/-- The four running totals of the batch summary loop in main.rs. -/
structure BatchTotals where
  total_original : Nat
  total_optimized : Nat
  total_images : Nat
  successful_files : Nat
deriving DecidableEq

/-- One iteration of the batch summary loop in main.rs, lines 102-121:
successes add their sizes and image count and bump the success counter,
failures leave every total unchanged. -/
def batchStep (t : BatchTotals) (r : Except Err OptimizationResult) : BatchTotals :=
  match r with
  | Except.ok res =>
      { total_original := t.total_original + res.original_size
        total_optimized := t.total_optimized + res.optimized_size
        total_images := t.total_images + res.images_optimized
        successful_files := t.successful_files + 1 }
  | Except.error _ => t

/-- The batch totals accumulated over the per-file results in input order. -/
def batchTotals (results : List (Except Err OptimizationResult)) : BatchTotals :=
  results.foldl batchStep { total_original := 0, total_optimized := 0, total_images := 0, successful_files := 0 }

/-- The aggregate ratio printed by the batch summary: the compression ratio
of the summed totals when any original bytes were counted, 0 otherwise. -/
def batchTotalRatio (results : List (Except Err OptimizationResult)) : ℚ :=
  let t := batchTotals results
  if 0 < t.total_original then calculate_compression_ratio t.total_original t.total_optimized
  else 0

/-- The successful results of a batch, in input order (claim side). -/
def successes (results : List (Except Err OptimizationResult)) : List OptimizationResult :=
  results.filterMap (fun r =>
    match r with
    | Except.ok v => some v
    | Except.error _ => none)

/-- Sum of original sizes over a result list (claim side). -/
def sumOriginal (l : List OptimizationResult) : Nat := (l.map (fun r => r.original_size)).sum

/-- Sum of optimized sizes over a result list (claim side). -/
def sumOptimized (l : List OptimizationResult) : Nat := (l.map (fun r => r.optimized_size)).sum

/-- Sum of per-file optimized-image counts over a result list (claim side). -/
def sumImages (l : List OptimizationResult) : Nat := (l.map (fun r => r.images_optimized)).sum

/-- A loaded document: the page list as returned by the document store's
get_pages, the trailer dictionary, and the object map in iteration order. -/
structure PDoc where
  pages : List Nat
  trailer : List (String × PVal)
  objects : List (Nat × PObj)

/-- validate_pdf from pdf_reader.rs, lines 12-24: error when get_pages is
empty, then error when the trailer has no Root entry. -/
def validate_pdf (doc : PDoc) : Except Err Unit :=
  if doc.pages.isEmpty then Except.error Err.noPages
  else
    match dictGet doc.trailer "Root" with
    | none => Except.error Err.missingRoot
    | some _ => Except.ok ()

/-- The per-file pipeline of optimize_pdf from optimizer.rs after loading:
validate, analyze (pure), derive settings and save options from the preset,
optimize images, then structure-compress and save through the opaque `sv`
step. Every error short-circuits the remaining steps. -/
def optimize_pdf_model (cdc : Codec) (sv : PDoc → SaveOptions → Except Err Unit)
    (doc : PDoc) (quality : Nat) (preset : Preset) : Except Err (PDoc × Nat) :=
  match validate_pdf doc with
  | Except.error e => Except.error e
  | Except.ok _ =>
      let _analysis := analyze_pdf_text doc.objects
      let settings := create_image_settings_for_preset preset quality
      let saveOptions := create_save_options_for_preset preset
      match optimize_images_in_pdf cdc settings doc.objects with
      | Except.error e => Except.error e
      | Except.ok (objs2, n) =>
          let doc2 : PDoc := { doc with objects := objs2 }
          match sv doc2 saveOptions with
          | Except.error e => Except.error e
          | Except.ok _ => Except.ok (doc2, n)

/-- File names as character lists, paths as component lists; the last
component is the file name. -/
abbrev FileName := List Char

/-- A file system path, as its components. -/
abbrev PathM := List FileName

/-- The file_name() of a path: its last component. -/
def fileNameOf (p : PathM) : FileName := p.getLastD []

/-- Path::join of a directory and a file name. -/
def joinPath (dir : PathM) (name : FileName) : PathM := dir ++ [name]

/-- Rust Path::with_extension restricted to the file name: drop the part
after the last dot when the name has an extension (a dot after its first
character), keep the whole name otherwise, then append a dot and the new
extension (which is nonempty at the one call site modelled). -/
def with_extension (name ext : FileName) : FileName :=
  let e := name.reverse.takeWhile (fun c => c != '.')
  let stem := if e.length + 2 ≤ name.length then name.take (name.length - e.length - 1) else name
  if ext.isEmpty then stem else stem ++ '.' :: ext

/-- The per-file output path of the batch command, main.rs lines 75-82:
join the output directory with the input's file name when a directory is
given, otherwise the input path with its extension set to optimized.pdf. -/
def batch_output_path (output_dir : Option PathM) (input : PathM) : PathM :=
  match output_dir with
  | some dir => joinPath dir (fileNameOf input)
  | none => input.dropLast ++ [with_extension (fileNameOf input) ("optimized.pdf".toList)]

/-- An in-memory raster image: dimensions plus an opaque pixel tag. -/
structure RasterImage where
  width : Nat
  height : Nat
  pix : Nat
deriving DecidableEq

/-- A record of one call into the external image codec, including the
quality argument handed to an encoder (none when the call site passes no
quality and the library default applies). -/
inductive CodecCall where
  | decodeCall (fmt : ImageFormat)
  | resizeCall (w h : Nat)
  | encodeCall (fmt : ImageFormat) (quality : Option Nat)
deriving DecidableEq

/-- The image crate primitives used by optimize_jpeg_image and
convert_and_optimize_image, kept opaque. write_to takes no quality
argument, exactly as DynamicImage::write_to does. -/
structure ImagePrims where
  load_from_memory : List Nat → ImageFormat → Except Err RasterImage
  resizeImg : RasterImage → Nat → Nat → RasterImage
  write_to : RasterImage → ImageFormat → List Nat

/-- resize_image_if_needed from image_optimizer.rs, lines 179-196: when a
maximum dimension is set and either side exceeds it, scale so the larger
side equals the maximum (the f32 ratio arithmetic is modelled as truncated
natural division); otherwise leave the image alone. Also returns the codec
calls made. -/
def resize_image_if_needed (pr : ImagePrims) (img : RasterImage)
    (settings : ImageSettings) : RasterImage × List CodecCall :=
  match settings.max_dimension with
  | some maxDim =>
      if img.width > maxDim || img.height > maxDim then
        let wh : Nat × Nat :=
          if img.width > img.height then (maxDim, maxDim * img.height / img.width)
          else (maxDim * img.width / img.height, maxDim)
        (pr.resizeImg img wh.1 wh.2, [CodecCall.resizeCall wh.1 wh.2])
      else (img, [])
  | none => (img, [])

/-- optimize_jpeg_image from image_optimizer.rs, lines 138-151: decode as
JPEG, conditionally resize, then write_to as JPEG with no quality argument
(the settings' jpeg_quality is never consulted). Returns the recoded bytes
with the trace of codec calls. -/
def optimize_jpeg_image (pr : ImagePrims) (data : List Nat)
    (settings : ImageSettings) : Except Err (List Nat × List CodecCall) :=
  match pr.load_from_memory data ImageFormat.jpeg with
  | Except.error e => Except.error e
  | Except.ok img =>
      let rz := resize_image_if_needed pr img settings
      Except.ok (pr.write_to rz.1 ImageFormat.jpeg,
        CodecCall.decodeCall ImageFormat.jpeg :: rz.2
          ++ [CodecCall.encodeCall ImageFormat.jpeg none])

/-- convert_and_optimize_image from image_optimizer.rs, lines 163-176:
decode with the detected format, conditionally resize, then write_to as
JPEG with no quality argument. -/
def convert_and_optimize_image (pr : ImagePrims) (data : List Nat)
    (fmt : ImageFormat) (settings : ImageSettings) : Except Err (List Nat × List CodecCall) :=
  match pr.load_from_memory data fmt with
  | Except.error e => Except.error e
  | Except.ok img =>
      let rz := resize_image_if_needed pr img settings
      Except.ok (pr.write_to rz.1 ImageFormat.jpeg,
        CodecCall.decodeCall fmt :: rz.2
          ++ [CodecCall.encodeCall ImageFormat.jpeg none])

/-- The per-entry preservation relation of the image pass (claim side):
ids are kept, objects that are not image streams are untouched, and a
stream maps to a stream whose dictionary agrees everywhere off Length. -/
def framePreserved (a b : Nat × PObj) : Prop :=
  b.1 = a.1
    ∧ ((∀ s : Strm, a.2 = PObj.stream s → is_image_stream s = false) → b = a)
    ∧ (∀ s s2 : Strm, a.2 = PObj.stream s → b.2 = PObj.stream s2 →
        ∀ k : String, k ≠ "Length" → dictGet s2.dict k = dictGet s.dict k)

/-- A codec whose three pipelines all succeed with fixed outputs, used to
exercise the theorems on concrete inputs. -/
def cdcOk : Codec :=
  { optimizeJpeg := fun _ _ => Except.ok [9, 9]
    optimizePng := fun _ => Except.ok [7]
    convertOther := fun _ _ _ => Except.ok [5] }

/-- A codec whose JPEG pipeline fails, used to exercise the error-path
theorems on concrete inputs. -/
def cdcFail : Codec :=
  { optimizeJpeg := fun _ _ => Except.error (Err.codecErr "decode")
    optimizePng := fun _ => Except.error (Err.codecErr "png")
    convertOther := fun _ _ _ => Except.error (Err.codecErr "convert") }

/-- A DCTDecode image stream with a 3-byte payload. -/
def strmJpeg : Strm :=
  { dict := [("Subtype", PVal.name "Image"), ("Filter", PVal.name "DCTDecode"), ("Length", PVal.int 3)]
    content := [1, 2, 3] }

/-- A FlateDecode stream whose payload starts with the PNG signature. -/
def strmFlatePng : Strm :=
  { dict := [("Filter", PVal.name "FlateDecode")]
    content := [0x89, 0x50, 0x4E, 0x47, 1] }

/-- A stream declaring Length whose payload contains b"BT\n". -/
def strmBT : Strm :=
  { dict := [("Length", PVal.int 5)]
    content := [120, 66, 84, 10, 120] }

/-- Web settings at the default quality 80. -/
def settingsWeb : ImageSettings := create_image_settings_for_preset Preset.web 80

/-- A document with no pages, an empty trailer, and no objects. -/
def docEmpty : PDoc := { pages := [], trailer := [], objects := [] }

/-- A save step that always succeeds, used to exercise the pipeline
theorems on concrete inputs. -/
def svOk : PDoc → SaveOptions → Except Err Unit := fun _ _ => Except.ok ()

/-- Decode/resize/encode primitives with fixed outputs, used to exercise
the JPEG recoding theorems on concrete inputs. -/
def prims0 : ImagePrims :=
  { load_from_memory := fun _ _ => Except.ok { width := 100, height := 50, pix := 7 }
    resizeImg := fun img w h => { width := w, height := h, pix := img.pix }
    write_to := fun img _ => [img.width, img.height, img.pix] }

/-- A one-component path for a file named doc.pdf. -/
def inputDocPdf : PathM := ["doc.pdf".toList]

theorem dictGet_dictSet_self (d : List (String × PVal)) (k : String) (v : PVal) :
    dictGet (dictSet d k v) k = some v := by
  induction d with
  | nil => simp [dictSet, dictGet]
  | cons p t ih =>
      obtain ⟨k2, v2⟩ := p
      by_cases hk : k2 = k
      · simp [dictSet, hk, dictGet]
      · simp [dictSet, hk, dictGet, ih]

theorem dictGet_dictSet_of_ne (d : List (String × PVal)) (k k2 : String) (v : PVal)
    (h : k2 ≠ k) : dictGet (dictSet d k v) k2 = dictGet d k2 := by
  induction d with
  | nil => simp [dictSet, dictGet, Ne.symm h]
  | cons p t ih =>
      obtain ⟨k3, v3⟩ := p
      by_cases hk : k3 = k
      · subst hk
        simp [dictSet, dictGet, Ne.symm h]
      · simp [dictSet, hk, dictGet, ih]

theorem mem_windows_length {l w : List Nat} (hw : w ∈ windows 4 l) : w.length = 4 := by
  unfold windows at hw
  obtain ⟨i, hi, rfl⟩ := List.mem_map.mp hw
  rw [List.mem_range] at hi
  simp only [List.length_take, List.length_drop]
  omega

theorem counted_as_text_false (s : Strm) : streamCountedAsText s = false := by
  unfold streamCountedAsText
  have hany : (windows 4 s.content).any (fun w => decide (w = [66, 84, 10])) = false := by
    rw [List.any_eq_false]
    intro w hw
    simp only [decide_eq_true_eq]
    intro hEq
    have hlen := mem_windows_length hw
    rw [hEq] at hlen
    simp at hlen
  rw [hany, Bool.and_false]

theorem analyze_text_fold (objs : List (Nat × PObj)) (acc : Nat × Nat) :
    objs.foldl
      (fun acc p =>
        match p.2 with
        | PObj.stream s =>
            if streamCountedAsText s then (acc.1 + 1, acc.2 + s.content.length) else acc
        | PObj.nonstream _ => acc)
      acc = acc := by
  induction objs generalizing acc with
  | nil => rfl
  | cons p rest ih =>
      obtain ⟨pid, po⟩ := p
      cases po with
      | stream s => simp [counted_as_text_false s, ih]
      | nonstream tg => simp [ih]

theorem optimize_image_stream_shape (cdc : Codec) (s : Strm) (settings : ImageSettings)
    (s2 : Strm) (h : optimize_image_stream cdc s settings = Except.ok (some s2)) :
    ∃ out : List Nat, s2 = create_optimized_stream s out := by
  unfold optimize_image_stream at h
  cases hfmt : detect_image_format s <;> rw [hfmt] at h
  · cases hj : cdc.optimizeJpeg s.content settings <;> rw [hj] at h
    · exact absurd h (by simp)
    · injection h with h1
      injection h1 with h2
      exact ⟨_, h2.symm⟩
  · by_cases hp : settings.enable_png_optimization = true
    · rw [if_pos hp] at h
      cases hj : cdc.optimizePng s.content <;> rw [hj] at h
      · exact absurd h (by simp)
      · injection h with h1
        injection h1 with h2
        exact ⟨_, h2.symm⟩
    · rw [if_neg hp] at h
      injection h with h1
      exact absurd h1 (by simp)
  · cases hj : cdc.convertOther s.content ImageFormat.other settings <;> rw [hj] at h
    · exact absurd h (by simp)
    · injection h with h1
      injection h1 with h2
      exact ⟨_, h2.symm⟩

theorem optimize_ok_all (cdc : Codec) (settings : ImageSettings) (objs : List (Nat × PObj))
    (r : List (Nat × PObj) × Nat) (h : optimize_images_in_pdf cdc settings objs = Except.ok r) :
    ∀ (id : Nat) (s : Strm), (id, PObj.stream s) ∈ objs → is_image_stream s = true →
      ∃ r2, optimize_image_stream cdc s settings = Except.ok r2 := by
  induction objs generalizing r with
  | nil =>
      intro id s hmem
      exact absurd hmem (List.not_mem_nil _)
  | cons p rest ih =>
      obtain ⟨pid, po⟩ := p
      intro id s hmem himg
      rcases List.mem_cons.mp hmem with heq | hmem2
      · injection heq with h1 h2
        subst h1
        cases h2
        simp only [optimize_images_in_pdf, himg, if_true] at h
        cases ho : optimize_image_stream cdc s settings with
        | error e => rw [ho] at h; exact absurd h (by simp)
        | ok v => exact ⟨v, rfl⟩
      · cases po with
        | nonstream tg =>
            simp only [optimize_images_in_pdf] at h
            cases hr : optimize_images_in_pdf cdc settings rest with
            | error e => rw [hr] at h; exact absurd h (by simp)
            | ok r2 => exact ih r2 hr id s hmem2 himg
        | stream s0 =>
            simp only [optimize_images_in_pdf] at h
            by_cases h0 : is_image_stream s0 = true
            · rw [h0] at h
              simp only [if_true] at h
              cases ho : optimize_image_stream cdc s0 settings with
              | error e => rw [ho] at h; exact absurd h (by simp)
              | ok v =>
                  rw [ho] at h
                  cases v with
                  | none =>
                      cases hr : optimize_images_in_pdf cdc settings rest with
                      | error e => rw [hr] at h; exact absurd h (by simp)
                      | ok r2 => exact ih r2 hr id s hmem2 himg
                  | some s3 =>
                      cases hr : optimize_images_in_pdf cdc settings rest with
                      | error e => rw [hr] at h; exact absurd h (by simp)
                      | ok r2 => exact ih r2 hr id s hmem2 himg
            · rw [Bool.not_eq_true] at h0
              rw [h0] at h
              simp only [Bool.false_eq_true, if_false] at h
              cases hr : optimize_images_in_pdf cdc settings rest with
              | error e => rw [hr] at h; exact absurd h (by simp)
              | ok r2 => exact ih r2 hr id s hmem2 himg

theorem optimize_first_error (cdc : Codec) (settings : ImageSettings) (e : Err)
    (id : Nat) (s : Strm) (l1 l2 : List (Nat × PObj))
    (himg : is_image_stream s = true)
    (herr : optimize_image_stream cdc s settings = Except.error e) :
    (∀ (id2 : Nat) (s2 : Strm), (id2, PObj.stream s2) ∈ l1 → is_image_stream s2 = true →
        ∃ r2, optimize_image_stream cdc s2 settings = Except.ok r2) →
    optimize_images_in_pdf cdc settings (l1 ++ (id, PObj.stream s) :: l2) = Except.error e := by
  induction l1 with
  | nil =>
      intro _
      simp [optimize_images_in_pdf, himg, herr]
  | cons p t ih =>
      intro hok
      obtain ⟨pid, po⟩ := p
      have hrec := ih (fun id2 s2 hm him => hok id2 s2 (List.mem_cons_of_mem _ hm) him)
      cases po with
      | nonstream tg => simp [optimize_images_in_pdf, hrec]
      | stream s0 =>
          by_cases h0 : is_image_stream s0 = true
          · obtain ⟨r2, hr2⟩ := hok pid s0 (List.mem_cons_self _ _) h0
            cases r2 with
            | none => simp [optimize_images_in_pdf, h0, hr2, hrec]
            | some s3 => simp [optimize_images_in_pdf, h0, hr2, hrec]
          · rw [Bool.not_eq_true] at h0
            simp [optimize_images_in_pdf, h0, hrec]

theorem batch_fold_totals (results : List (Except Err OptimizationResult)) (t : BatchTotals) :
    results.foldl batchStep t =
      { total_original := t.total_original + sumOriginal (successes results)
        total_optimized := t.total_optimized + sumOptimized (successes results)
        total_images := t.total_images + sumImages (successes results)
        successful_files := t.successful_files + (successes results).length } := by
  induction results generalizing t with
  | nil => simp [successes, sumOriginal, sumOptimized, sumImages]
  | cons r rs ih =>
      cases r with
      | ok v =>
          rw [List.foldl_cons, ih]
          simp only [successes, List.filterMap_cons, sumOriginal, sumOptimized, sumImages,
            List.map_cons, List.sum_cons, List.length_cons, batchStep, BatchTotals.mk.injEq]
          refine ⟨by omega, by omega, by omega, by omega⟩
      | error e2 =>
          rw [List.foldl_cons, ih]
          simp [successes, List.filterMap_cons, batchStep]

/-- C1: for every preset and every quality in [0,100],
create_image_settings_for_preset returns exactly the fixed table of the
spec (Web: quality as given, lossless on, max dimension 1920; Print:
max(q,85), lossless on, no max; Archive: q, lossless on, no max; Maximum:
min(q,70), lossless on, max 1024); in particular Print at 50 yields 85 and
Maximum at 90 yields 70. -/
theorem C1_preset_policy_table (p : Preset) (q : Nat) (_hq : q ≤ 100) :
    create_image_settings_for_preset p q = derive_image_settings_spec p q
    ∧ (create_image_settings_for_preset Preset.print 50).jpeg_quality = 85
    ∧ (create_image_settings_for_preset Preset.maximum 90).jpeg_quality = 70 := by
  refine ⟨?_, by decide, by decide⟩
  cases p <;> rfl

/-- C1 witness: the table instantiated at the Print preset with quality 50. -/
theorem C1_witness :
    create_image_settings_for_preset Preset.print 50 = derive_image_settings_spec Preset.print 50
    ∧ (create_image_settings_for_preset Preset.print 50).jpeg_quality = 85
    ∧ (create_image_settings_for_preset Preset.maximum 90).jpeg_quality = 70 :=
  C1_preset_policy_table Preset.print 50 (by decide)

/-- C2: whenever the image pass replaces a stream, the produced stream's
Length attribute equals the byte length of its new payload exactly. -/
theorem C2_length_matches_payload (cdc : Codec) (s : Strm) (settings : ImageSettings)
    (s2 : Strm) (h : optimize_image_stream cdc s settings = Except.ok (some s2)) :
    dictGet s2.dict "Length" = some (PVal.int (s2.content.length : Int)) := by
  obtain ⟨out, rfl⟩ := optimize_image_stream_shape cdc s settings s2 h
  simp [create_optimized_stream, dictGet_dictSet_self]

/-- C2 witness: a concrete DCTDecode stream replaced by a 2-byte payload
carries Length 2. -/
theorem C2_witness :
    dictGet (create_optimized_stream strmJpeg [9, 9]).dict "Length"
      = some (PVal.int ((create_optimized_stream strmJpeg [9, 9]).content.length : Int)) :=
  C2_length_matches_payload cdcOk strmJpeg settingsWeb (create_optimized_stream strmJpeg [9, 9]) rfl

/-- C3: contrary to the claim, the JPEG re-encoding step never hands the
policy's jpeg_quality to the encoder. The result of optimize_jpeg_image is
independent of the jpeg_quality field, and on a concrete run (Print preset,
whose policy quality is 85) the one encoder invocation carries no quality
argument at all (write_to has no quality parameter); the same holds for
convert_and_optimize_image. -/
theorem C3_quality_never_used :
    (∀ (pr : ImagePrims) (data : List Nat) (q1 q2 : Nat) (b : Bool) (m : Option Nat),
        optimize_jpeg_image pr data
            { jpeg_quality := q1, enable_png_optimization := b, max_dimension := m }
          = optimize_jpeg_image pr data
            { jpeg_quality := q2, enable_png_optimization := b, max_dimension := m })
    ∧ optimize_jpeg_image prims0 [1, 2, 3] (create_image_settings_for_preset Preset.print 50)
        = Except.ok ([100, 50, 7],
            [CodecCall.decodeCall ImageFormat.jpeg, CodecCall.encodeCall ImageFormat.jpeg none])
    ∧ convert_and_optimize_image prims0 [1, 2, 3] ImageFormat.other
          (create_image_settings_for_preset Preset.print 50)
        = Except.ok ([100, 50, 7],
            [CodecCall.decodeCall ImageFormat.other, CodecCall.encodeCall ImageFormat.jpeg none])
    ∧ (create_image_settings_for_preset Preset.print 50).jpeg_quality = 85 := by
  refine ⟨?_, rfl, rfl, by decide⟩
  intro pr data q1 q2 b m
  rfl

/-- C4: contrary to the claim, the text heuristic can never fire: the code
compares 4-byte windows of the payload against the 3-byte sequence b"BT\n",
so analyze_pdf counts zero text objects and zero text bytes on every
document, even one whose stream declares Length and contains b"BT\n". -/
theorem C4_text_heuristic_dead :
    (∀ objs : List (Nat × PObj), analyze_pdf_text objs = (0, 0))
    ∧ streamCountedAsText strmBT = false
    ∧ containsSeq [66, 84, 10] strmBT.content = true
    ∧ (dictGet strmBT.dict "Length").isSome = true := by
  refine ⟨fun objs => ?_, by decide, by decide, by decide⟩
  unfold analyze_pdf_text
  exact analyze_text_fold objs (0, 0)

/-- C5: detect_image_format returns JPEG when the Filter name is DCTDecode;
PNG when the Filter name is FlateDecode and the payload starts with the PNG
signature; PNG when the payload starts with the PNG signature without a
DCTDecode filter; and JPEG in every other case — the filter hint is
consulted before the content signature and JPEG is the default. -/
theorem C5_format_detection (s : Strm) :
    (dictGet s.dict "Filter" = some (PVal.name "DCTDecode") →
        detect_image_format s = ImageFormat.jpeg)
    ∧ (dictGet s.dict "Filter" = some (PVal.name "FlateDecode") →
        startsWithPng s.content = true → detect_image_format s = ImageFormat.png)
    ∧ (startsWithPng s.content = true →
        dictGet s.dict "Filter" ≠ some (PVal.name "DCTDecode") →
        detect_image_format s = ImageFormat.png)
    ∧ (startsWithPng s.content = false →
        dictGet s.dict "Filter" ≠ some (PVal.name "DCTDecode") →
        detect_image_format s = ImageFormat.jpeg) := by
  refine ⟨?_, ?_, ?_, ?_⟩
  · intro h
    simp [detect_image_format, h]
  · intro h hsig
    simp [detect_image_format, h, hsig]
  · intro hsig hne
    cases hf : dictGet s.dict "Filter" with
    | none => simp [detect_image_format, hf, hsig]
    | some v =>
        cases v with
        | name n =>
            have hn : n ≠ "DCTDecode" := fun h2 => hne (by rw [hf, h2])
            by_cases h3 : n = "FlateDecode"
            · simp [detect_image_format, hf, h3, hsig]
            · simp [detect_image_format, hf, hn, h3, hsig]
        | int i => simp [detect_image_format, hf, hsig]
        | other tg => simp [detect_image_format, hf, hsig]
  · intro hsig hne
    cases hf : dictGet s.dict "Filter" with
    | none => simp [detect_image_format, hf, hsig]
    | some v =>
        cases v with
        | name n =>
            have hn : n ≠ "DCTDecode" := fun h2 => hne (by rw [hf, h2])
            by_cases h3 : n = "FlateDecode"
            · simp [detect_image_format, hf, h3, hsig, hn]
            · simp [detect_image_format, hf, hn, h3, hsig]
        | int i => simp [detect_image_format, hf, hsig]
        | other tg => simp [detect_image_format, hf, hsig]

/-- C5 witness: a DCTDecode stream detects as JPEG, a FlateDecode stream
with a PNG-signature payload detects as PNG. -/
theorem C5_witness :
    detect_image_format strmJpeg = ImageFormat.jpeg
    ∧ detect_image_format strmFlatePng = ImageFormat.png :=
  ⟨(C5_format_detection strmJpeg).1 rfl,
   (C5_format_detection strmFlatePng).2.1 rfl rfl⟩

/-- C6: the batch totals are exactly the sums over the successful results
(sizes, image count, success count), and the aggregate ratio is the
compression formula applied to those summed totals — 0 when no original
bytes were counted — not an average of per-file ratios. -/
theorem C6_batch_aggregation (results : List (Except Err OptimizationResult)) :
    batchTotals results =
      { total_original := sumOriginal (successes results)
        total_optimized := sumOptimized (successes results)
        total_images := sumImages (successes results)
        successful_files := (successes results).length }
    ∧ batchTotalRatio results =
        (if sumOriginal (successes results) = 0 then 0
         else ((sumOriginal (successes results) : ℚ) - (sumOptimized (successes results) : ℚ))
                / (sumOriginal (successes results) : ℚ) * 100) := by
  have h1 : batchTotals results =
      { total_original := sumOriginal (successes results)
        total_optimized := sumOptimized (successes results)
        total_images := sumImages (successes results)
        successful_files := (successes results).length } := by
    unfold batchTotals
    rw [batch_fold_totals]
    simp
  refine ⟨h1, ?_⟩
  unfold batchTotalRatio
  rw [h1]
  by_cases h0 : sumOriginal (successes results) = 0
  · simp [h0, calculate_compression_ratio]
  · have hpos : 0 < sumOriginal (successes results) := Nat.pos_of_ne_zero h0
    simp only [hpos, if_pos, if_neg h0, calculate_compression_ratio, if_neg h0]

/-- C7: when the codec step for a qualifying image stream fails, the whole
per-file image pass fails (no skip-and-continue) — and when the failing
stream is the first qualifying failure, the pass returns exactly that
error; in a batch every file's result is its own independent run, so the
error is confined to that file. -/
theorem C7_codec_error_aborts_file (cdc : Codec) (settings : ImageSettings) (e : Err)
    (id : Nat) (s : Strm) (l1 l2 objs : List (Nat × PObj))
    (hsplit : objs = l1 ++ (id, PObj.stream s) :: l2)
    (himg : is_image_stream s = true)
    (herr : optimize_image_stream cdc s settings = Except.error e) :
    (∃ e2, optimize_images_in_pdf cdc settings objs = Except.error e2)
    ∧ ((∀ (id2 : Nat) (s2 : Strm), (id2, PObj.stream s2) ∈ l1 → is_image_stream s2 = true →
          ∃ r2, optimize_image_stream cdc s2 settings = Except.ok r2) →
        optimize_images_in_pdf cdc settings objs = Except.error e)
    ∧ (∀ (docs : List (List (Nat × PObj))) (j : Nat),
        (batchOptimize cdc settings docs).get? j
          = (docs.get? j).map (fun d => optimize_images_in_pdf cdc settings d)) := by
  subst hsplit
  refine ⟨?_, ?_, ?_⟩
  · cases hres : optimize_images_in_pdf cdc settings (l1 ++ (id, PObj.stream s) :: l2) with
    | error e2 => exact ⟨e2, rfl⟩
    | ok r =>
        obtain ⟨r2, hr2⟩ := optimize_ok_all cdc settings _ r hres id s
          (List.mem_append_right _ (List.mem_cons_self _ _)) himg
        exact absurd (hr2.symm.trans herr) (by simp)
  · exact optimize_first_error cdc settings e id s l1 l2 himg herr
  · intro docs j
    simp [batchOptimize, List.get?_map]

/-- C7 witness: a one-stream document whose JPEG pipeline fails makes the
whole pass return that error. -/
theorem C7_witness :
    optimize_images_in_pdf cdcFail settingsWeb [(1, PObj.stream strmJpeg)]
      = Except.error (Err.codecErr "decode") :=
  (C7_codec_error_aborts_file cdcFail settingsWeb (Err.codecErr "decode") 1 strmJpeg [] []
      [(1, PObj.stream strmJpeg)] rfl rfl rfl).2.1
    (fun _ _ hm _ => absurd hm (List.not_mem_nil _))

/-- C8: a document with no pages makes validate_pdf fail with the no-pages
error and makes the whole per-file pipeline return that error regardless of
the codec and save steps (so nothing downstream runs and the document is
never mutated); a trailer without a Root entry likewise fails validation
and aborts the pipeline before any mutation. -/
theorem C8_validation_gates (cdc : Codec) (sv : PDoc → SaveOptions → Except Err Unit)
    (doc : PDoc) (q : Nat) (p : Preset) :
    (doc.pages = [] →
        validate_pdf doc = Except.error Err.noPages
        ∧ optimize_pdf_model cdc sv doc q p = Except.error Err.noPages)
    ∧ (dictGet doc.trailer "Root" = none →
        ∃ e, validate_pdf doc = Except.error e
          ∧ optimize_pdf_model cdc sv doc q p = Except.error e) := by
  constructor
  · intro hp
    have hv : validate_pdf doc = Except.error Err.noPages := by
      simp [validate_pdf, hp]
    exact ⟨hv, by simp [optimize_pdf_model, hv]⟩
  · intro hr
    by_cases hp : doc.pages = []
    · have hv : validate_pdf doc = Except.error Err.noPages := by
        simp [validate_pdf, hp]
      exact ⟨Err.noPages, hv, by simp [optimize_pdf_model, hv]⟩
    · have hv : validate_pdf doc = Except.error Err.missingRoot := by
        simp [validate_pdf, hr, hp]
      exact ⟨Err.missingRoot, hv, by simp [optimize_pdf_model, hv]⟩

/-- C8 witness: the empty document fails validation with the no-pages error
and the pipeline returns it unchanged. -/
theorem C8_witness :
    validate_pdf docEmpty = Except.error Err.noPages
    ∧ optimize_pdf_model cdcOk svOk docEmpty 80 Preset.web = Except.error Err.noPages :=
  (C8_validation_gates cdcOk svOk docEmpty 80 Preset.web).1 rfl

theorem takeWhile_all_true {α : Type} (p : α → Bool) (l : List α)
    (h : ∀ x ∈ l, p x = true) : l.takeWhile p = l := by
  induction l with
  | nil => rfl
  | cons x xs ih =>
      simp [List.takeWhile_cons, h x (by simp), ih (fun y hy => h y (by simp [hy]))]

theorem takeWhile_stops {α : Type} (p : α → Bool) (l1 : List α) (a : α) (l2 : List α)
    (h1 : ∀ x ∈ l1, p x = true) (ha : p a = false) :
    (l1 ++ a :: l2).takeWhile p = l1 := by
  induction l1 with
  | nil => simp [List.takeWhile_cons, ha]
  | cons x xs ih =>
      simp [List.takeWhile_cons, h1 x (by simp), ih (fun y hy => h1 y (by simp [hy]))]

theorem with_extension_replaces (stem ext ext2 : FileName)
    (hdot : '.' ∉ ext) (hstem : stem ≠ []) (hne : ext2.isEmpty = false) :
    with_extension (stem ++ '.' :: ext) ext2 = stem ++ '.' :: ext2 := by
  have hextrev : ∀ x ∈ ext.reverse, (x != '.') = true := by
    intro x hx
    rw [List.mem_reverse] at hx
    simp only [bne_iff_ne, ne_eq]
    rintro rfl
    exact hdot hx
  have htw : (stem ++ '.' :: ext).reverse.takeWhile (fun d => d != '.') = ext.reverse := by
    have hrev : (stem ++ '.' :: ext).reverse = ext.reverse ++ '.' :: stem.reverse := by
      simp
    rw [hrev]
    exact takeWhile_stops _ _ _ _ hextrev (by simp)
  have hlen : (stem ++ '.' :: ext).length = stem.length + ext.length + 1 := by
    simp [List.length_append]
    omega
  have hex : ext.reverse.length = ext.length := List.length_reverse _
  have hstemlen : 0 < stem.length := List.length_pos.mpr hstem
  simp only [with_extension, htw, hne, Bool.false_eq_true, if_false]
  rw [if_pos (by rw [hex, hlen]; omega)]
  have harith : (stem ++ '.' :: ext).length - ext.reverse.length - 1 = stem.length := by
    rw [hlen, hex]
    omega
  rw [harith]
  rw [List.take_left stem ('.' :: ext)]

theorem with_extension_appends (name ext2 : FileName)
    (hdot : '.' ∉ name.drop 1) (hne : ext2.isEmpty = false) :
    with_extension name ext2 = name ++ '.' :: ext2 := by
  cases name with
  | nil => simp [with_extension, hne]
  | cons c rest =>
      have hrest : '.' ∉ rest := by simpa using hdot
      have hrestrev : ∀ x ∈ rest.reverse, (x != '.') = true := by
        intro x hx
        rw [List.mem_reverse] at hx
        simp only [bne_iff_ne, ne_eq]
        rintro rfl
        exact hrest hx
      by_cases hc : c = '.'
      · subst hc
        have htw : ('.' :: rest).reverse.takeWhile (fun d => d != '.') = rest.reverse := by
          have hrev : ('.' :: rest).reverse = rest.reverse ++ '.' :: ([] : FileName) := by
            simp
          rw [hrev]
          exact takeWhile_stops _ _ _ _ hrestrev (by simp)
        simp only [with_extension, htw, hne, Bool.false_eq_true, if_false]
        rw [if_neg (by simp only [List.length_reverse, List.length_cons]; omega)]
      · have htw : ((c :: rest).reverse).takeWhile (fun d => d != '.') = (c :: rest).reverse := by
          apply takeWhile_all_true
          intro x hx
          rw [List.mem_reverse] at hx
          rcases List.mem_cons.mp hx with rfl | hx2
          · simp only [bne_iff_ne, ne_eq]
            exact hc
          · simp only [bne_iff_ne, ne_eq]
            rintro rfl
            exact hrest hx2
        simp only [with_extension, htw, hne, Bool.false_eq_true, if_false]
        rw [if_neg (by simp only [List.length_reverse]; omega)]

/-- C9 counterexample: for the input doc.pdf the batch output path is not
the full input name with .optimized.pdf appended — the code replaces the
existing extension, producing doc.optimized.pdf. -/
theorem C9_counterexample :
    batch_output_path none inputDocPdf ≠ [("doc.pdf.optimized.pdf").toList]
    ∧ batch_output_path none inputDocPdf = [("doc.optimized.pdf").toList] := by
  constructor <;> decide

/-- C9 amended: the per-file batch output path is output_dir joined with
the input's file name when an output directory is given; otherwise it is
the input path with its extension replaced by optimized.pdf — the suffix is
appended to the full name only when the input name has no extension (no dot
after its first character). -/
theorem C9_amended_output_paths :
    (∀ dir input : PathM, batch_output_path (some dir) input = dir ++ [fileNameOf input])
    ∧ (∀ (input : PathM) (stem ext : FileName),
        fileNameOf input = stem ++ '.' :: ext → '.' ∉ ext → stem ≠ [] →
        batch_output_path none input
          = input.dropLast ++ [stem ++ '.' :: ("optimized.pdf").toList])
    ∧ (∀ input : PathM, '.' ∉ (fileNameOf input).drop 1 →
        batch_output_path none input
          = input.dropLast ++ [fileNameOf input ++ '.' :: ("optimized.pdf").toList]) := by
  refine ⟨fun dir input => rfl, ?_, ?_⟩
  · intro input stem ext hname hdot hstem
    unfold batch_output_path
    rw [hname, with_extension_replaces stem ext _ hdot hstem (by decide)]
  · intro input hdot
    unfold batch_output_path
    rw [with_extension_appends _ _ hdot (by decide)]

/-- C9 witness: the amended rule instantiated at doc.pdf yields
doc.optimized.pdf alongside the source. -/
theorem C9_witness :
    batch_output_path none inputDocPdf
      = inputDocPdf.dropLast ++ [("doc".toList) ++ '.' :: ("optimized.pdf").toList] :=
  C9_amended_output_paths.2.1 inputDocPdf ("doc".toList) ("pdf".toList)
    (by decide) (by decide) (by decide)

/-- C10: on success the image pass maps the object list entrywise: every id
is kept, every object that is not an image stream is left unchanged, and
every stream's replacement agrees with the original dictionary on every
attribute other than Length. -/
theorem C10_non_image_frame (cdc : Codec) (settings : ImageSettings)
    (objs objs2 : List (Nat × PObj)) (n : Nat)
    (h : optimize_images_in_pdf cdc settings objs = Except.ok (objs2, n)) :
    List.Forall₂ framePreserved objs objs2 := by
  induction objs generalizing objs2 n with
  | nil =>
      simp only [optimize_images_in_pdf] at h
      injection h with h3
      injection h3 with ha hb
      rw [← ha]
      exact List.Forall₂.nil
  | cons p rest ih =>
      obtain ⟨pid, po⟩ := p
      cases po with
      | nonstream tg =>
          simp only [optimize_images_in_pdf] at h
          cases hr : optimize_images_in_pdf cdc settings rest with
          | error e2 => rw [hr] at h; exact absurd h (by simp)
          | ok pr =>
              obtain ⟨r, m⟩ := pr
              rw [hr] at h
              injection h with h3
              injection h3 with ha hb
              rw [← ha]
              refine List.Forall₂.cons ⟨rfl, fun _ => rfl, fun s s2 hs hs2 k hk => ?_⟩ (ih r m hr)
              exact absurd hs (by simp)
      | stream s =>
          simp only [optimize_images_in_pdf] at h
          by_cases h0 : is_image_stream s = true
          · rw [h0] at h
            simp only [if_true] at h
            cases ho : optimize_image_stream cdc s settings with
            | error e2 => rw [ho] at h; exact absurd h (by simp)
            | ok v =>
                rw [ho] at h
                cases v with
                | none =>
                    cases hr : optimize_images_in_pdf cdc settings rest with
                    | error e2 => rw [hr] at h; exact absurd h (by simp)
                    | ok pr =>
                        obtain ⟨r, m⟩ := pr
                        rw [hr] at h
                        injection h with h3
                        injection h3 with ha hb
                        rw [← ha]
                        refine List.Forall₂.cons
                          ⟨rfl, fun _ => rfl, fun s4 s5 hs4 hs5 k hk => ?_⟩ (ih r m hr)
                        injection hs4 with hs4e
                        injection hs5 with hs5e
                        rw [← hs4e, ← hs5e]
                | some s3 =>
                    cases hr : optimize_images_in_pdf cdc settings rest with
                    | error e2 => rw [hr] at h; exact absurd h (by simp)
                    | ok pr =>
                        obtain ⟨r, m⟩ := pr
                        rw [hr] at h
                        injection h with h3
                        injection h3 with ha hb
                        rw [← ha]
                        obtain ⟨out, rfl⟩ := optimize_image_stream_shape cdc s settings s3 ho
                        refine List.Forall₂.cons ⟨rfl, ?_, ?_⟩ (ih r m hr)
                        · intro hni
                          exact absurd (hni s rfl) (by simp [h0])
                        · intro s4 s5 hs4 hs5 k hk
                          injection hs4 with hs4e
                          injection hs5 with hs5e
                          rw [← hs4e, ← hs5e]
                          exact dictGet_dictSet_of_ne s.dict "Length" k _ hk
          · rw [Bool.not_eq_true] at h0
            rw [h0] at h
            simp only [Bool.false_eq_true, if_false] at h
            cases hr : optimize_images_in_pdf cdc settings rest with
            | error e2 => rw [hr] at h; exact absurd h (by simp)
            | ok pr =>
                obtain ⟨r, m⟩ := pr
                rw [hr] at h
                injection h with h3
                injection h3 with ha hb
                rw [← ha]
                refine List.Forall₂.cons ⟨rfl, fun _ => rfl, fun s4 s5 hs4 hs5 k hk => ?_⟩
                  (ih r m hr)
                injection hs4 with hs4e
                injection hs5 with hs5e
                rw [← hs4e, ← hs5e]

/-- C10 witness: a concrete run over one image stream and one plain object
satisfies the frame relation. -/
theorem C10_witness :
    List.Forall₂ framePreserved
      [(1, PObj.stream strmJpeg), (2, PObj.nonstream 5)]
      [(1, PObj.stream (create_optimized_stream strmJpeg [9, 9])), (2, PObj.nonstream 5)] :=
  C10_non_image_frame cdcOk settingsWeb
    [(1, PObj.stream strmJpeg), (2, PObj.nonstream 5)]
    [(1, PObj.stream (create_optimized_stream strmJpeg [9, 9])), (2, PObj.nonstream 5)] 1 rfl

end PdfOptiCompress
